import Mathlib

/-!
Verification of the Store_Backend repository (User_API/customer_crud.py).

The file embeds the four request handlers and the cart-key derivation of
`customer_crud.py` as Lean functions over an explicit cart state, and proves
the behavioural claims about them.

Modelling conventions, stated once:
* Strings are Lean `String`s; Python f-string interpolation of an integer is
  decimal rendering, embedded as `natRepr` / `intRepr` below (matching
  Python's `str` on `int`: decimal digits, a leading minus sign for
  negatives).
* The Redis hash at one user's cart key is a `CartState`: an association
  list from item id to the stored line item, plus an optional expiry
  deadline.  JSON (de)serialization of the fixed-shape line-item record
  (`json.dumps`/`json.loads`) is a bijection on these records, so the hash
  stores `LineItem` values directly.
* Redis expiry is lazy: each handler takes the current time `now` and first
  discards the hash if its recorded deadline has passed (`expireIfDue`),
  which is how an expired key is observed as absent.
* Cache failures are modelled by a schedule `failAt : Option Nat` naming
  which Redis call inside the handler (counted from 0 in program order)
  raises; a raised call performs no write and aborts the handler at that
  point, exactly as a Python exception would.
* The identity-verification step (`verify_token`) selects which cart key the
  handler touches; the theorems are stated per cart, and `get_cart_key`
  injectivity (claim C4) is what separates distinct users' carts.
* `shared_files/models.py` is not among the repository sources.
  `Item` is modelled from the spec: section 3 gives `id`, `name`, `price`,
  `in_stock`; the price is taken to be an integer since no claim depends on
  the numeric representation of prices, only on their preservation and
  formatting.
-/

namespace StoreBackend

/-- Decimal rendering of a natural number, as Python `str` produces it:
most significant digit first, `"0"` for zero. -/
def natRepr (n : Nat) : List Char :=
  if _h : n < 10 then [Nat.digitChar n]
  else natRepr (n / 10) ++ [Nat.digitChar (n % 10)]
  decreasing_by exact Nat.div_lt_self (by omega) (by omega)

/-- Decimal rendering of an integer, as Python `str` produces it. -/
def intRepr (i : Int) : List Char :=
  if i < 0 then '-' :: natRepr i.natAbs else natRepr i.natAbs

def intReprStr (i : Int) : String := ⟨intRepr i⟩

/-- `get_cart_key` from customer_crud.py:
the f-string building `cart:` ++ username ++ `_` ++ str(id). -/
def get_cart_key (username : String) (id : Int) : String :=
  "cart:" ++ username ++ "_" ++ intReprStr id

/-- Read a most-significant-first digit string back to a number. -/
def strVal (l : List Char) : Nat :=
  l.foldl (fun a c => 10 * a + (c.toNat - 48)) 0

/-- Modelled from the spec: `shared_files/models.py` is not among the
repository sources.  Section 3 of the spec gives the catalog `Item` fields
`id`, `name`, `price`, `in_stock`; the price is modelled as an integer
(no claim depends on the numeric representation of prices). -/
structure Item where
  id : Int
  name : String
  price : Int
  in_stock : Bool
deriving DecidableEq

/-- The JSON object `id`/`name`/`price`/`quantity` stored as one Redis hash
field value (`item_info` in customer_crud.py). -/
structure LineItem where
  id : Int
  name : String
  price : Int
  quantity : Int
deriving DecidableEq

/-- The state of one user's cart key in Redis: the hash fields (item id to
stored line item) and the key's expiry deadline, `none` when no expiry is
set (the key persists). -/
structure CartState where
  fields : List (Int × LineItem)
  expiry : Option Nat
deriving DecidableEq

/-- Outcome of a handler: an HTTPException raised by the handler's own code,
or an exception the handler does not catch (propagated to the framework). -/
inductive Err where
  | http (code : Nat) (detail : String)
  | uncaught
deriving DecidableEq

/-- `r.hget key field`: first binding of the field in the hash. -/
def hget : List (Int × LineItem) → Int → Option LineItem
  | [], _ => none
  | p :: rest, k => if p.1 = k then some p.2 else hget rest k

/-- `r.hset key field value`: replace the binding of the field, or append a
new binding when the field is absent. -/
def hsetFields : List (Int × LineItem) → Int → LineItem → List (Int × LineItem)
  | [], k, v => [(k, v)]
  | p :: rest, k, v =>
    if p.1 = k then (k, v) :: rest else p :: hsetFields rest k v

/-- `r.hdel key field`: delete the binding of the field. -/
def hdelFields (fs : List (Int × LineItem)) (k : Int) : List (Int × LineItem) :=
  fs.filter (fun p => decide (p.1 ≠ k))

/-- Redis lazy expiration: a key whose deadline has passed is observed as
deleted.  Each handler applies this with the current time before touching
the hash. -/
def expireIfDue (now : Nat) (st : CartState) : CartState :=
  match st.expiry with
  | some t => if t ≤ now then ⟨[], none⟩ else st
  | none => st

/-- One formatted row of the `view_store` response. -/
structure StoreEntry where
  name : String
  price : String
  in_stock : Bool
deriving DecidableEq

/-- `view_store`: 404 when the inventory query returns nothing, otherwise
one row per item with the price rendered as a dollar-prefixed string. -/
def view_store (db : List Item) : Except Err (List StoreEntry) :=
  if db.isEmpty then
    .error (.http 404 "There are no items in inventory right now. Please come back later.")
  else
    .ok (db.map fun item => ⟨item.name, "$" ++ intReprStr item.price, item.in_stock⟩)

/-- The detail string of the HTTPException raised when a Redis call inside
`add_to_cart`'s try block fails. -/
def addErrDetail (itemName : String) : String :=
  "There was a problem adding " ++ itemName ++ " to cart. Please try again later."

/-- `add_to_cart`.  `id` is the path parameter, `db` the catalog, `failAt`
the index (in program order: 0 = hget, 1 = hset, 2 = expire) of the Redis
call that raises, if any.  Returns the cart state left in Redis together
with the handler's outcome. -/
def add_to_cart (id : Int) (db : List Item) (now : Nat) (failAt : Option Nat)
    (st : CartState) : CartState × Except Err String :=
  let st := expireIfDue now st
  match db.find? (fun item => item.id == id) with
  | none => (st, .error (.http 404 ("There is no item with the id: " ++ intReprStr id)))
  | some item =>
    if failAt = some 0 then (st, .error (.http 500 (addErrDetail item.name))) else
    let item_info : LineItem :=
      match hget st.fields item.id with
      | some existing => { existing with quantity := existing.quantity + 1 }
      | none => { id := item.id, name := item.name, price := item.price, quantity := 1 }
    if failAt = some 1 then (st, .error (.http 500 (addErrDetail item.name))) else
    let st := { st with fields := hsetFields st.fields item.id item_info }
    if failAt = some 2 then (st, .error (.http 500 (addErrDetail item.name))) else
    ({ st with expiry := some (now + 86400) },
     .ok ("Item: " ++ item.name ++ " was added to cart!"))

/-- `r.hgetall` as `view_cart` observes it. -/
def hgetall (now : Nat) (st : CartState) : List (Int × LineItem) :=
  (expireIfDue now st).fields

/-- `view_cart`: decode every hash field value, in the hash's own order. -/
def view_cart (now : Nat) (st : CartState) : List LineItem :=
  (hgetall now st).map (fun p => p.2)

/-- `remove_item_from_cart`.  The initial `r.hget` and the `json.loads` of
its result sit outside the try block: a missing field makes `json.loads`
raise an uncaught TypeError (outcome `Err.uncaught`), and a Redis failure in
the hget itself (failAt = 0) is equally uncaught.  Only the
hset/hdel (failAt = 1) is caught and turned into the 500 response. -/
def remove_item_from_cart (id : Int) (now : Nat) (failAt : Option Nat)
    (st : CartState) : CartState × Except Err String :=
  let st := expireIfDue now st
  if failAt = some 0 then (st, .error .uncaught) else
  match hget st.fields id with
  | none => (st, .error .uncaught)
  | some item =>
    if failAt = some 1 then
      (st, .error (.http 500 "Could not delete item from the cart. Please try again later."))
    else if item.quantity > 1 then
      ({ st with fields := hsetFields st.fields id { item with quantity := item.quantity - 1 } },
       .ok "The item was removed from your cart.")
    else
      ({ st with fields := hdelFields st.fields id },
       .ok "The item was removed from your cart.")

/-- A cart state whose stored line items carry the hash field they sit
under as their `id`; every state the handlers produce is of this shape. -/
def WellFormed (st : CartState) : Prop :=
  ∀ p ∈ st.fields, p.2.id = p.1

/-- Cart states reachable from the empty cart by any sequence of
`add_to_cart` and `remove_item_from_cart` calls, with arbitrary catalogs,
times and cache-failure schedules. -/
inductive Reachable : CartState → Prop
  | init : Reachable ⟨[], none⟩
  | add (id : Int) (db : List Item) (now : Nat) (failAt : Option Nat)
      (st : CartState) : Reachable st → Reachable (add_to_cart id db now failAt st).1
  | remove (id : Int) (now : Nat) (failAt : Option Nat) (st : CartState) :
      Reachable st → Reachable (remove_item_from_cart id now failAt st).1

/-! ### Facts about decimal rendering -/

theorem digitChar_toNat {d : Nat} (h : d < 10) :
    (Nat.digitChar d).toNat = 48 + d := by
  interval_cases d <;> rfl

theorem digitChar_ne_underscore {d : Nat} (h : d < 10) :
    Nat.digitChar d ≠ '_' := by
  interval_cases d <;> decide

theorem digitChar_ne_minus {d : Nat} (h : d < 10) :
    Nat.digitChar d ≠ '-' := by
  interval_cases d <;> decide

theorem strVal_append_digit (l : List Char) (c : Char) :
    strVal (l ++ [c]) = 10 * strVal l + (c.toNat - 48) := by
  simp [strVal, List.foldl_append]

theorem strVal_natRepr (n : Nat) : strVal (natRepr n) = n := by
  induction n using Nat.strong_induction_on with
  | _ n ih =>
    rw [natRepr]
    by_cases h : n < 10
    · simp only [h, dif_pos]
      simp [strVal, digitChar_toNat h]
    · simp only [h, dif_neg, not_false_iff]
      rw [strVal_append_digit, ih (n / 10) (Nat.div_lt_self (by omega) (by omega)),
        digitChar_toNat (Nat.mod_lt n (by omega))]
      omega

theorem natRepr_injective {a b : Nat} (h : natRepr a = natRepr b) : a = b := by
  have := strVal_natRepr a
  rw [h, strVal_natRepr] at this
  omega

theorem natRepr_mem_digit {n : Nat} {c : Char} (hc : c ∈ natRepr n) :
    c ≠ '_' ∧ c ≠ '-' := by
  induction n using Nat.strong_induction_on with
  | _ n ih =>
    rw [natRepr] at hc
    by_cases h : n < 10
    · simp only [h, dif_pos, List.mem_singleton] at hc
      subst hc
      exact ⟨digitChar_ne_underscore h, digitChar_ne_minus h⟩
    · simp only [h, dif_neg, not_false_iff, List.mem_append, List.mem_singleton] at hc
      rcases hc with hc | hc
      · exact ih (n / 10) (Nat.div_lt_self (by omega) (by omega)) hc
      · subst hc
        have h10 : n % 10 < 10 := Nat.mod_lt n (by omega)
        exact ⟨digitChar_ne_underscore h10, digitChar_ne_minus h10⟩

theorem intRepr_no_underscore {i : Int} {c : Char} (hc : c ∈ intRepr i) :
    c ≠ '_' := by
  unfold intRepr at hc
  by_cases h : i < 0
  · simp only [h, if_pos] at hc
    rcases List.mem_cons.mp hc with rfl | hc
    · decide
    · exact (natRepr_mem_digit hc).1
  · simp only [h, if_neg, not_false_iff] at hc
    exact (natRepr_mem_digit hc).1

theorem natRepr_ne_nil (n : Nat) : natRepr n ≠ [] := by
  rw [natRepr]
  by_cases h : n < 10 <;> simp [h]

theorem intRepr_injective {a b : Int} (h : intRepr a = intRepr b) : a = b := by
  unfold intRepr at h
  by_cases ha : a < 0 <;> by_cases hb : b < 0
  · simp only [ha, hb, if_pos] at h
    have := natRepr_injective (List.cons_injective h)
    omega
  · simp only [ha, hb, if_pos, if_neg, not_false_iff] at h
    exfalso
    exact (natRepr_mem_digit (h ▸ List.mem_cons_self '-' _)).2 rfl
  · simp only [ha, hb, if_pos, if_neg, not_false_iff] at h
    exfalso
    exact (natRepr_mem_digit (h.symm ▸ List.mem_cons_self '-' _)).2 rfl
  · simp only [ha, hb, if_neg, not_false_iff] at h
    have := natRepr_injective h
    omega

/-! ### Splitting a list at a marker absent from one side -/

theorem marker_split {α} (c : α) :
    ∀ (x x' y y' : List α), c ∉ x → c ∉ x' →
      x ++ c :: y = x' ++ c :: y' → x = x' ∧ y = y'
  | [], [], y, y', _, _, h => by
    simp only [List.nil_append] at h
    exact ⟨rfl, List.cons_injective h⟩
  | [], a' :: t', y, y', _, hx', h => by
    exfalso
    simp only [List.nil_append, List.cons_append, List.cons.injEq] at h
    exact hx' (h.1 ▸ List.mem_cons_self a' t')
  | a :: t, [], y, y', hx, _, h => by
    exfalso
    simp only [List.nil_append, List.cons_append, List.cons.injEq] at h
    exact hx (h.1.symm ▸ List.mem_cons_self a t)
  | a :: t, a' :: t', y, y', hx, hx', h => by
    simp only [List.cons_append, List.cons.injEq] at h
    obtain ⟨rfl, h⟩ := h
    have := marker_split c t t' y y' (fun m => hx (List.mem_cons_of_mem a m))
      (fun m => hx' (List.mem_cons_of_mem a m)) h
    exact ⟨by rw [this.1], this.2⟩

/-! ### Lemmas about the hash primitives -/

theorem hget_hsetFields_self (fs : List (Int × LineItem)) (k : Int) (v : LineItem) :
    hget (hsetFields fs k v) k = some v := by
  induction fs with
  | nil => simp [hsetFields, hget]
  | cons p rest ih =>
    by_cases h : p.1 = k
    · simp [hsetFields, h, hget]
    · simp [hsetFields, h, hget, ih]

theorem hget_hsetFields_ne (fs : List (Int × LineItem)) (k k' : Int) (v : LineItem)
    (h : k' ≠ k) : hget (hsetFields fs k v) k' = hget fs k' := by
  induction fs with
  | nil => simp [hsetFields, hget, Ne.symm h]
  | cons p rest ih =>
    by_cases hp : p.1 = k
    · subst hp
      simp [hsetFields, hget, Ne.symm h]
    · simp only [hsetFields, hp, if_false]
      by_cases hp' : p.1 = k'
      · simp [hget, hp']
      · simp [hget, hp', ih]

theorem hget_hdelFields_self (fs : List (Int × LineItem)) (k : Int) :
    hget (hdelFields fs k) k = none := by
  induction fs with
  | nil => simp [hdelFields, hget]
  | cons p rest ih =>
    by_cases h : p.1 = k
    · simpa [hdelFields, h] using ih
    · simpa [hdelFields, hget, h] using ih

theorem hget_hdelFields_ne (fs : List (Int × LineItem)) (k k' : Int)
    (h : k' ≠ k) : hget (hdelFields fs k) k' = hget fs k' := by
  induction fs with
  | nil => simp [hdelFields, hget]
  | cons p rest ih =>
    by_cases hp : p.1 = k
    · simpa [hdelFields, hget, hp, Ne.symm h] using ih
    · by_cases hp' : p.1 = k'
      · simp [hdelFields, List.filter_cons, hget, hp, hp', h]
      · simpa [hdelFields, List.filter_cons, hget, hp, hp'] using ih

theorem hget_mem {fs : List (Int × LineItem)} {k : Int} {v : LineItem}
    (h : hget fs k = some v) : (k, v) ∈ fs := by
  induction fs with
  | nil => simp [hget] at h
  | cons p rest ih =>
    obtain ⟨a, b⟩ := p
    by_cases hp : a = k
    · subst hp
      simp only [hget] at h
      simp only [if_pos rfl, if_true, Option.some.injEq] at h
      subst h
      exact List.mem_cons_self _ _
    · simp only [hget, hp, if_false] at h
      exact List.mem_cons_of_mem _ (ih h)

theorem mem_hsetFields {fs : List (Int × LineItem)} {k : Int} {v : LineItem}
    {p : Int × LineItem} (h : p ∈ hsetFields fs k v) : p = (k, v) ∨ p ∈ fs := by
  induction fs with
  | nil => simpa [hsetFields] using h
  | cons q rest ih =>
    by_cases hq : q.1 = k
    · simp only [hsetFields, hq, if_pos, List.mem_cons] at h
      rcases h with h | h
      · exact Or.inl h
      · exact Or.inr (List.mem_cons_of_mem _ h)
    · simp only [hsetFields, hq, if_false, List.mem_cons] at h
      rcases h with h | h
      · exact Or.inr (h ▸ List.mem_cons_self q rest)
      · rcases ih h with h | h
        · exact Or.inl h
        · exact Or.inr (List.mem_cons_of_mem _ h)

theorem mem_hdelFields {fs : List (Int × LineItem)} {k : Int}
    {p : Int × LineItem} (h : p ∈ hdelFields fs k) : p ∈ fs :=
  List.mem_of_mem_filter h

theorem expireIfDue_mem {now : Nat} {st : CartState} {p : Int × LineItem}
    (h : p ∈ (expireIfDue now st).fields) : p ∈ st.fields := by
  obtain ⟨fs, E⟩ := st
  cases E with
  | none => simpa [expireIfDue] using h
  | some t =>
    by_cases ht : t ≤ now
    · simp [expireIfDue, ht] at h
    · simpa [expireIfDue, ht] using h

/-! ### Claim C4: cart key derivation is injective -/

/-- C4: `get_cart_key` is a pure deterministic function and is injective:
distinct `(subject, user_id)` pairs give distinct keys, even when the
subject contains the `_` separator (the decimal rendering of the user id
contains no underscore, so the split at the last underscore is unique). -/
theorem get_cart_key_injective (s₁ s₂ : String) (i₁ i₂ : Int)
    (h : get_cart_key s₁ i₁ = get_cart_key s₂ i₂) : s₁ = s₂ ∧ i₁ = i₂ := by
  have hd : ('c' :: 'a' :: 'r' :: 't' :: ':' :: (s₁.data ++ '_' :: intRepr i₁)) =
      ('c' :: 'a' :: 'r' :: 't' :: ':' :: (s₂.data ++ '_' :: intRepr i₂)) := by
    have := congrArg String.data h
    simpa [get_cart_key, intReprStr, String.data_append, String.instAppend,
      String.append] using this
  have hd' : s₁.data ++ '_' :: intRepr i₁ = s₂.data ++ '_' :: intRepr i₂ := by
    simpa using hd
  have hrev : (intRepr i₁).reverse ++ '_' :: s₁.data.reverse =
      (intRepr i₂).reverse ++ '_' :: s₂.data.reverse := by
    have := congrArg List.reverse hd'
    simpa [List.reverse_append] using this
  have hsplit := marker_split '_' _ _ _ _
    (fun m => intRepr_no_underscore (List.mem_reverse.mp m) rfl)
    (fun m => intRepr_no_underscore (List.mem_reverse.mp m) rfl) hrev
  refine ⟨?_, ?_⟩
  · apply String.ext
    have := congrArg List.reverse hsplit.2
    simpa using this
  · apply intRepr_injective
    have := congrArg List.reverse hsplit.1
    simpa using this

/-- Concrete instantiation of `get_cart_key_injective`. -/
theorem get_cart_key_injective_witness :
    ("alice" : String) = "alice" ∧ (7 : Int) = 7 :=
  get_cart_key_injective "alice" "alice" 7 7 rfl

/-! ### Case analyses of the two mutating handlers -/

theorem add_fields_cases (id : Int) (db : List Item) (now : Nat)
    (failAt : Option Nat) (st : CartState) :
    (add_to_cart id db now failAt st).1.fields = (expireIfDue now st).fields ∨
    ∃ item, db.find? (fun it => it.id == id) = some item ∧
      (add_to_cart id db now failAt st).1.fields =
        hsetFields (expireIfDue now st).fields item.id
          (match hget (expireIfDue now st).fields item.id with
           | some existing => { existing with quantity := existing.quantity + 1 }
           | none => ⟨item.id, item.name, item.price, 1⟩) := by
  rcases hf : db.find? (fun it => it.id == id) with _ | item
  · left
    simp [add_to_cart, hf]
  · by_cases h0 : failAt = some 0
    · left
      simp [add_to_cart, hf, h0]
    · by_cases h1 : failAt = some 1
      · left
        simp [add_to_cart, hf, h0, h1]
      · by_cases h2 : failAt = some 2
        · right
          exact ⟨item, hf, by simp [add_to_cart, hf, h0, h1, h2]⟩
        · right
          exact ⟨item, hf, by simp [add_to_cart, hf, h0, h1, h2]⟩

theorem remove_fields_cases (id : Int) (now : Nat) (failAt : Option Nat)
    (st : CartState) :
    (remove_item_from_cart id now failAt st).1.fields = (expireIfDue now st).fields ∨
    (∃ li, hget (expireIfDue now st).fields id = some li ∧ li.quantity > 1 ∧
      (remove_item_from_cart id now failAt st).1.fields =
        hsetFields (expireIfDue now st).fields id
          { li with quantity := li.quantity - 1 }) ∨
    (remove_item_from_cart id now failAt st).1.fields =
      hdelFields (expireIfDue now st).fields id := by
  by_cases h0 : failAt = some 0
  · left
    simp [remove_item_from_cart, h0]
  · rcases hg : hget (expireIfDue now st).fields id with _ | li
    · left
      simp [remove_item_from_cart, h0, hg]
    · by_cases h1 : failAt = some 1
      · left
        simp [remove_item_from_cart, h0, h1, hg]
      · by_cases hq : li.quantity > 1
        · right; left
          exact ⟨li, rfl, hq, by simp [remove_item_from_cart, h0, h1, hg, hq]⟩
        · right; right
          simp [remove_item_from_cart, h0, h1, hg, hq]

/-! ### Claim C1: snapshot on first add, increment on repeat add -/

/-- C1: with no cache failure, `add_to_cart` on an item id absent from the
cart stores a line item with quantity 1 capturing the catalog item's
current name and price, and on an item id already present stores the same
line item with only its quantity incremented by 1 (name and price snapshot
unchanged). -/
theorem add_to_cart_snapshot_increment
    (id : Int) (db : List Item) (now : Nat) (st : CartState) (item : Item)
    (hfind : db.find? (fun it => it.id == id) = some item) :
    (hget (expireIfDue now st).fields item.id = none →
      hget (add_to_cart id db now none st).1.fields item.id =
        some ⟨item.id, item.name, item.price, 1⟩) ∧
    (∀ li, hget (expireIfDue now st).fields item.id = some li →
      hget (add_to_cart id db now none st).1.fields item.id =
        some { li with quantity := li.quantity + 1 }) := by
  constructor
  · intro habs
    simp [add_to_cart, hfind, habs, hget_hsetFields_self]
  · intro li hpres
    simp [add_to_cart, hfind, hpres, hget_hsetFields_self]

/-- Concrete instantiation of `add_to_cart_snapshot_increment`:
first add of item 1 stores quantity 1 with the catalog snapshot. -/
theorem add_to_cart_snapshot_increment_witness :
    hget (add_to_cart 1 [⟨1, "Widget", 999, true⟩] 0 none ⟨[], none⟩).1.fields 1 =
      some ⟨1, "Widget", 999, 1⟩ :=
  (add_to_cart_snapshot_increment 1 [⟨1, "Widget", 999, true⟩] 0 ⟨[], none⟩
    ⟨1, "Widget", 999, true⟩ rfl).1 rfl

/-! ### Claim C2: remove decrements, or deletes at quantity one -/

theorem remove_fields_delete (id : Int) (now : Nat) (st : CartState) (li : LineItem)
    (h0 : hget (expireIfDue now st).fields id = some li) (hq : li.quantity = 1) :
    (remove_item_from_cart id now none st).1.fields =
      hdelFields (expireIfDue now st).fields id := by
  simp [remove_item_from_cart, h0, hq]

/-- C2: with no cache failure, `remove_item_from_cart` on a line item with
quantity above 1 writes the entry back with quantity decremented by 1, and
on a line item with quantity exactly 1 deletes the hash field entirely, so
the item id no longer appears in a subsequent `view_cart`. -/
theorem remove_item_decrement_or_delete
    (id : Int) (now now' : Nat) (st : CartState) (li : LineItem)
    (h0 : hget (expireIfDue now st).fields id = some li) :
    (li.quantity > 1 →
      (remove_item_from_cart id now none st).1.fields =
        hsetFields (expireIfDue now st).fields id
          { li with quantity := li.quantity - 1 } ∧
      hget (remove_item_from_cart id now none st).1.fields id =
        some { li with quantity := li.quantity - 1 }) ∧
    (li.quantity = 1 →
      (remove_item_from_cart id now none st).1.fields =
        hdelFields (expireIfDue now st).fields id ∧
      hget (remove_item_from_cart id now none st).1.fields id = none ∧
      (WellFormed (expireIfDue now st) →
        ∀ x ∈ view_cart now' (remove_item_from_cart id now none st).1, x.id ≠ id)) := by
  constructor
  · intro hq
    constructor
    · simp [remove_item_from_cart, h0, hq]
    · simp [remove_item_from_cart, h0, hq, hget_hsetFields_self]
  · intro hq
    have hfields := remove_fields_delete id now st li h0 hq
    refine ⟨hfields, ?_, ?_⟩
    · rw [hfields]
      exact hget_hdelFields_self _ _
    · intro hwf x hx
      simp only [view_cart, hgetall, List.mem_map] at hx
      obtain ⟨p, hp, rfl⟩ := hx
      have hp' : p ∈ (remove_item_from_cart id now none st).1.fields :=
        expireIfDue_mem hp
      rw [hfields] at hp'
      have hne : p.1 ≠ id := by
        have := (List.mem_filter.mp hp').2
        simpa using this
      have := hwf p (mem_hdelFields hp')
      rw [this]
      exact hne

/-- Concrete instantiation of `remove_item_decrement_or_delete`:
removing an item held with quantity 2 leaves it with quantity 1. -/
theorem remove_item_decrement_or_delete_witness :
    hget (remove_item_from_cart 1 0 none
        ⟨[(1, ⟨1, "Widget", 999, 2⟩)], some 100⟩).1.fields 1 =
      some ⟨1, "Widget", 999, 1⟩ := by
  have h := (remove_item_decrement_or_delete 1 0 0
    ⟨[(1, ⟨1, "Widget", 999, 2⟩)], some 100⟩ ⟨1, "Widget", 999, 2⟩ rfl).1
    (by decide)
  simpa using h.2

/-! ### Claim C3: reachable carts never store quantity below one -/

/-- C3: in every cart state reachable from the empty cart by any sequence
of adds and removes (any catalogs, times and cache-failure schedules),
every stored line item has quantity at least 1; and a line item whose
quantity is 1 is deleted, not stored at 0, by the remove that hits it. -/
theorem cart_invariant_quantity_ge_one (st : CartState) (h : Reachable st) :
    (∀ k li, hget st.fields k = some li → 1 ≤ li.quantity) ∧
    (∀ k li now, hget st.fields k = some li → li.quantity = 1 →
      hget (remove_item_from_cart k now none st).1.fields k = none) := by
  constructor
  · have main : ∀ s, Reachable s → ∀ p ∈ s.fields, 1 ≤ p.2.quantity := by
      intro s hs
      induction hs with
      | init =>
        intro p hp
        simp at hp
      | add id db now failAt st' _ ih =>
        intro p hp
        rcases add_fields_cases id db now failAt st' with hc | ⟨item, _, hc⟩
        · rw [hc] at hp
          exact ih p (expireIfDue_mem hp)
        · rw [hc] at hp
          rcases mem_hsetFields hp with rfl | hmem
          · rcases hg : hget (expireIfDue now st').fields item.id with _ | existing
            · simp [hg]
            · have hq : 1 ≤ existing.quantity :=
                ih (item.id, existing) (expireIfDue_mem (hget_mem hg))
              simp [hg]
              omega
          · exact ih p (expireIfDue_mem hmem)
      | remove id now failAt st' _ ih =>
        intro p hp
        rcases remove_fields_cases id now failAt st' with hc | ⟨li, _, hq, hc⟩ | hc
        · rw [hc] at hp
          exact ih p (expireIfDue_mem hp)
        · rw [hc] at hp
          rcases mem_hsetFields hp with rfl | hmem
          · simp only
            omega
          · exact ih p (expireIfDue_mem hmem)
        · rw [hc] at hp
          exact ih p (expireIfDue_mem (mem_hdelFields hp))
    intro k li hk
    exact main st h (k, li) (hget_mem hk)
  · intro k li now hk hq
    obtain ⟨fs, E⟩ := st
    rcases E with _ | t
    · have hE : expireIfDue now ⟨fs, none⟩ = ⟨fs, none⟩ := rfl
      have hg : hget (expireIfDue now ⟨fs, none⟩).fields k = some li := by
        rw [hE]; exact hk
      rw [remove_fields_delete k now ⟨fs, none⟩ li hg hq, hE]
      exact hget_hdelFields_self _ _
    · by_cases ht : t ≤ now
      · have hE : expireIfDue now ⟨fs, some t⟩ = ⟨[], none⟩ := by
          simp [expireIfDue, ht]
        simp [remove_item_from_cart, hE, hget]
      · have hE : expireIfDue now ⟨fs, some t⟩ = ⟨fs, some t⟩ := by
          simp [expireIfDue, ht]
        have hg : hget (expireIfDue now ⟨fs, some t⟩).fields k = some li := by
          rw [hE]; exact hk
        rw [remove_fields_delete k now ⟨fs, some t⟩ li hg hq, hE]
        exact hget_hdelFields_self _ _

/-- Concrete instantiation of `cart_invariant_quantity_ge_one`: the cart
after one add of item 1 stores it with quantity 1, which is at least 1. -/
theorem cart_invariant_quantity_ge_one_witness :
    1 ≤ (⟨1, "Widget", 999, 1⟩ : LineItem).quantity :=
  (cart_invariant_quantity_ge_one
      (add_to_cart 1 [⟨1, "Widget", 999, true⟩] 0 none ⟨[], none⟩).1
      (Reachable.add 1 [⟨1, "Widget", 999, true⟩] 0 none ⟨[], none⟩
        Reachable.init)).1
    1 ⟨1, "Widget", 999, 1⟩ rfl

/-! ### Claim C5: view_cart is total and complete -/

/-- C5: `view_cart` returns every decoded line item of the cart's hash, and
returns the empty list (its return type admits no error outcome) when the
cart has no entries or has expired. -/
theorem view_cart_complete_empty_on_expiry (now : Nat) (st : CartState) :
    (∀ p ∈ hgetall now st, p.2 ∈ view_cart now st) ∧
    (st.fields = [] → view_cart now st = []) ∧
    (∀ t, st.expiry = some t → t ≤ now → view_cart now st = []) := by
  refine ⟨?_, ?_, ?_⟩
  · intro p hp
    exact List.mem_map_of_mem _ hp
  · intro hf
    obtain ⟨fs, E⟩ := st
    simp only at hf
    subst hf
    rcases E with _ | t
    · simp [view_cart, hgetall, expireIfDue]
    · by_cases ht : t ≤ now <;> simp [view_cart, hgetall, expireIfDue, ht]
  · intro t hE ht
    obtain ⟨fs, E⟩ := st
    simp only at hE
    subst hE
    simp [view_cart, hgetall, expireIfDue, ht]

/-- Concrete instantiation of `view_cart_complete_empty_on_expiry`. -/
theorem view_cart_complete_empty_on_expiry_witness :
    (⟨1, "Widget", 999, 1⟩ : LineItem) ∈
      view_cart 0 ⟨[(1, ⟨1, "Widget", 999, 1⟩)], none⟩ :=
  (view_cart_complete_empty_on_expiry 0 ⟨[(1, ⟨1, "Widget", 999, 1⟩)], none⟩).1
    (1, ⟨1, "Widget", 999, 1⟩) (by simp [hgetall, expireIfDue])

/-! ### Claim C6: view_store fails 404 exactly on an empty catalog -/

/-- C6: `view_store` returns a 404 NotFound error exactly when the catalog
is empty; with at least one item it returns every item, the price rendered
as a dollar-prefixed string, together with its stock flag. -/
theorem view_store_404_iff_empty (db : List Item) :
    ((∃ detail, view_store db = .error (.http 404 detail)) ↔ db = []) ∧
    (∀ out, view_store db = .ok out →
      out = db.map fun item =>
        ⟨item.name, "$" ++ intReprStr item.price, item.in_stock⟩) := by
  constructor
  · constructor
    · rintro ⟨d, hd⟩
      by_contra hne
      have hE : db.isEmpty = false := by
        cases db
        · exact absurd rfl hne
        · rfl
      simp [view_store, hE] at hd
    · rintro rfl
      exact ⟨_, rfl⟩
  · intro out hout
    by_cases h : db = []
    · subst h
      simp [view_store] at hout
    · have hE : db.isEmpty = false := by
        cases db
        · exact absurd rfl h
        · rfl
      simp only [view_store, hE, Bool.false_eq_true, if_false, Except.ok.injEq] at hout
      exact hout.symm

/-- Concrete instantiation of `view_store_404_iff_empty`: the empty catalog
yields a 404. -/
theorem view_store_404_iff_empty_witness :
    ∃ detail, view_store [] = .error (.http 404 detail) :=
  (view_store_404_iff_empty []).1.mpr rfl

/-! ### Claim C7: add resets the cart expiry, remove never touches it -/

/-- C7: every successful `add_to_cart` sets the whole cart's expiry to
24 hours (86400 seconds) after the current time, while
`remove_item_from_cart` leaves the cart's expiry exactly as the lazily
expired state had it, on every one of its paths (it issues no expire
call). -/
theorem add_resets_expiry_remove_preserves
    (id : Int) (db : List Item) (now : Nat) (failAt failAt' : Option Nat)
    (st st' : CartState) (m : String) :
    ((add_to_cart id db now failAt st).2 = .ok m →
      (add_to_cart id db now failAt st).1.expiry = some (now + 86400)) ∧
    (remove_item_from_cart id now failAt' st').1.expiry =
      (expireIfDue now st').expiry := by
  constructor
  · intro hok
    rcases hf : db.find? (fun it => it.id == id) with _ | item
    · simp [add_to_cart, hf] at hok
    · by_cases h0 : failAt = some 0
      · simp [add_to_cart, hf, h0] at hok
      · by_cases h1 : failAt = some 1
        · simp [add_to_cart, hf, h0, h1] at hok
        · by_cases h2 : failAt = some 2
          · simp [add_to_cart, hf, h0, h1, h2] at hok
          · simp [add_to_cart, hf, h0, h1, h2]
  · by_cases h0 : failAt' = some 0
    · simp [remove_item_from_cart, h0]
    · rcases hg : hget (expireIfDue now st').fields id with _ | li
      · simp [remove_item_from_cart, h0, hg]
      · by_cases h1 : failAt' = some 1
        · simp [remove_item_from_cart, h0, h1, hg]
        · by_cases hq : li.quantity > 1 <;>
            simp [remove_item_from_cart, h0, h1, hg, hq]

/-- Concrete instantiation of `add_resets_expiry_remove_preserves`. -/
theorem add_resets_expiry_remove_preserves_witness :
    (add_to_cart 1 [⟨1, "Widget", 999, true⟩] 0 none ⟨[], none⟩).1.expiry =
      some 86400 := by
  have h := (add_resets_expiry_remove_preserves 1 [⟨1, "Widget", 999, true⟩] 0
    none none ⟨[], none⟩ ⟨[], none⟩ "Item: Widget was added to cart!").1 rfl
  simpa using h

/-! ### Claim C8: removing an absent item is an uncaught failure -/

/-- C8: when the item id has no entry in the cart (never added, or the cart
expired), `remove_item_from_cart`'s hget yields nothing and decoding it
raises an exception the handler does not catch: the outcome is neither the
handler's own 500 Internal response nor any deliberate NotFound response. -/
theorem remove_missing_item_uncaught
    (id : Int) (now : Nat) (st : CartState)
    (habs : hget (expireIfDue now st).fields id = none) :
    remove_item_from_cart id now none st = (expireIfDue now st, .error .uncaught) ∧
    (∀ code detail, (Err.uncaught : Err) ≠ .http code detail) := by
  constructor
  · simp [remove_item_from_cart, habs]
  · exact fun code detail h => Err.noConfusion h

/-- Concrete instantiation of `remove_missing_item_uncaught`: removing from
an empty cart. -/
theorem remove_missing_item_uncaught_witness :
    remove_item_from_cart 1 0 none ⟨[], none⟩ = (⟨[], none⟩, .error .uncaught) :=
  (remove_missing_item_uncaught 1 0 ⟨[], none⟩ rfl).1

/-! ### Claim C9: cache failure in add yields 500 and no rollback -/

/-- C9: whichever of `add_to_cart`'s three Redis calls (hget, hset, expire)
fails, the handler returns the 500 Internal error whose detail names the
item, and already-performed writes are not rolled back: a failure at or
before the hset leaves the lazily expired state untouched, and a failure at
the expire call leaves the hset write in place with the expiry
unchanged. -/
theorem add_cache_failure_500_no_rollback
    (id : Int) (db : List Item) (now : Nat) (st : CartState) (item : Item)
    (i : Nat) (hfind : db.find? (fun it => it.id == id) = some item)
    (hi : i < 3) :
    (add_to_cart id db now (some i) st).2 =
      .error (.http 500 (addErrDetail item.name)) ∧
    (∃ pre post, addErrDetail item.name = pre ++ item.name ++ post) ∧
    (i ≤ 1 → (add_to_cart id db now (some i) st).1 = expireIfDue now st) ∧
    (i = 2 → (add_to_cart id db now (some i) st).1.fields =
        hsetFields (expireIfDue now st).fields item.id
          (match hget (expireIfDue now st).fields item.id with
           | some existing => { existing with quantity := existing.quantity + 1 }
           | none => ⟨item.id, item.name, item.price, 1⟩) ∧
      (add_to_cart id db now (some i) st).1.expiry =
        (expireIfDue now st).expiry) := by
  interval_cases i
  · exact ⟨by simp [add_to_cart, hfind],
      ⟨"There was a problem adding ", " to cart. Please try again later.", rfl⟩,
      fun _ => by simp [add_to_cart, hfind],
      fun h => by simp at h⟩
  · exact ⟨by simp [add_to_cart, hfind],
      ⟨"There was a problem adding ", " to cart. Please try again later.", rfl⟩,
      fun _ => by simp [add_to_cart, hfind],
      fun h => by simp at h⟩
  · exact ⟨by simp [add_to_cart, hfind],
      ⟨"There was a problem adding ", " to cart. Please try again later.", rfl⟩,
      fun h => by omega,
      fun _ => ⟨by simp [add_to_cart, hfind], by simp [add_to_cart, hfind]⟩⟩

/-- Concrete instantiation of `add_cache_failure_500_no_rollback`: the
expire call failing still yields the 500 naming the item. -/
theorem add_cache_failure_500_no_rollback_witness :
    (add_to_cart 1 [⟨1, "Widget", 999, true⟩] 0 (some 2) ⟨[], none⟩).2 =
      .error (.http 500 (addErrDetail "Widget")) :=
  (add_cache_failure_500_no_rollback 1 [⟨1, "Widget", 999, true⟩] 0 ⟨[], none⟩
    ⟨1, "Widget", 999, true⟩ 2 rfl (by omega)).1

/-! ### Claim C10: each operation touches at most its own hash field -/

/-- C10: a successful `add_to_cart` or `remove_item_from_cart` for item
`id` leaves the hash entry of every other item id `k` exactly as the
lazily expired state had it. -/
theorem handlers_touch_only_their_item
    (id k : Int) (db : List Item) (now : Nat) (failAt : Option Nat)
    (st : CartState) (m m' : String) (hk : k ≠ id) :
    ((add_to_cart id db now failAt st).2 = .ok m →
      hget (add_to_cart id db now failAt st).1.fields k =
        hget (expireIfDue now st).fields k) ∧
    ((remove_item_from_cart id now failAt st).2 = .ok m' →
      hget (remove_item_from_cart id now failAt st).1.fields k =
        hget (expireIfDue now st).fields k) := by
  constructor
  · intro hok
    rcases hf : db.find? (fun it => it.id == id) with _ | item
    · simp [add_to_cart, hf] at hok
    · have hid : item.id = id := by
        have := List.find?_some hf
        simpa using this
      by_cases h0 : failAt = some 0
      · simp [add_to_cart, hf, h0] at hok
      · by_cases h1 : failAt = some 1
        · simp [add_to_cart, hf, h0, h1] at hok
        · by_cases h2 : failAt = some 2
          · simp [add_to_cart, hf, h0, h1, h2] at hok
          · simp only [add_to_cart, hf, h0, h1, h2, if_false]
            rw [hid]
            exact hget_hsetFields_ne _ _ _ _ hk
  · intro hok
    by_cases h0 : failAt = some 0
    · simp [remove_item_from_cart, h0] at hok
    · rcases hg : hget (expireIfDue now st).fields id with _ | li
      · simp [remove_item_from_cart, h0, hg] at hok
      · by_cases h1 : failAt = some 1
        · simp [remove_item_from_cart, h0, h1, hg] at hok
        · by_cases hq : li.quantity > 1
          · simp only [remove_item_from_cart, h0, h1, hg, hq]
            simp [hq]
            exact hget_hsetFields_ne _ _ _ _ hk
          · simp only [remove_item_from_cart, h0, h1, hg, hq]
            simp [hq]
            exact hget_hdelFields_ne _ _ _ hk

/-- Concrete instantiation of `handlers_touch_only_their_item`: adding item
1 leaves the entry for item 2 unchanged. -/
theorem handlers_touch_only_their_item_witness :
    hget (add_to_cart 1 [⟨1, "Widget", 999, true⟩] 0 none
        ⟨[(2, ⟨2, "Gadget", 5, 3⟩)], some 50⟩).1.fields 2 =
      hget (expireIfDue 0 ⟨[(2, ⟨2, "Gadget", 5, 3⟩)], some 50⟩).fields 2 :=
  (handlers_touch_only_their_item 1 2 [⟨1, "Widget", 999, true⟩] 0 none
    ⟨[(2, ⟨2, "Gadget", 5, 3⟩)], some 50⟩ "Item: Widget was added to cart!"
    "The item was removed from your cart." (by decide)).1 rfl

end StoreBackend
